import Mathlib

/-!
Verification of the garage-barbershop authentication and RBAC core.

The Go sources under `internal/services`, `internal/repositories` and
`internal/migrations` are shallowly embedded as Lean functions.  External
effectful dependencies are made explicit:

* the current Unix time (`time.Now().Unix()`) becomes an `Int` parameter;
* the HMAC-SHA256 primitive (`crypto/hmac` + `encoding/hex`) becomes an
  abstract function parameter `hmacHex : String → String → String`
  (key, message ↦ hex digest) — the code treats it as a black box;
* the Redis client becomes an explicit association-list cache threaded
  through each operation, with `nil` clients modelled as `Option`;
* the GORM-backed repositories become pure operations on list-shaped
  database states.
-/

set_option autoImplicit false

namespace GarageBarbershop

/-! ## Telegram auth payload (internal/models/auth.go, TelegramAuthData) -/

/-- Mirror of `models.TelegramAuthData`: the signed login-widget payload. -/
structure TelegramAuthData where
  id : Int
  username : String
  firstName : String
  lastName : String
  authDate : Int
  hash : String
  deriving DecidableEq, Repr

/-- Mirror of the `fmt.Sprintf` data-check string built by
`ValidateTelegramAuth` (auth_service.go): the format literal
`"auth_date=%d\nfirst_name=%s\nid=%d\nlast_name=%s\nusername=%s"`
instantiated with the payload fields. -/
def dataCheckString (a : TelegramAuthData) : String :=
  "auth_date=" ++ toString a.authDate ++
  "\nfirst_name=" ++ a.firstName ++
  "\nid=" ++ toString a.id ++
  "\nlast_name=" ++ a.lastName ++
  "\nusername=" ++ a.username

/-- Embedding of `authService.ValidateTelegramAuth` (auth_service.go).
`hmacHex key msg` stands for the hex-encoded HMAC-SHA256 of `msg` keyed by
`key`; `now` stands for `time.Now().Unix()`. -/
def ValidateTelegramAuth (hmacHex : String → String → String) (now : Int)
    (authData : TelegramAuthData) (botToken : String) : Bool :=
  if now - authData.authDate > 300 then
    false
  else
    hmacHex botToken (dataCheckString authData) == authData.hash

/-! Spec-side rendering for C1: the newline-joined, key-sorted rendering of
the payload fields (excluding the `hash` field). -/

/-- Byte-wise comparison on char lists (kernel-reducible, unlike the
built-in `String.lt` decision procedure). -/
def charListLe : List Char → List Char → Bool
  | [], _ => true
  | _ :: _, [] => false
  | a :: as, b :: bs =>
    if a.toNat < b.toNat then true
    else if b.toNat < a.toNat then false
    else charListLe as bs

/-- Lexicographic key order used for the canonical rendering. -/
def strLe (a b : String) : Bool :=
  charListLe a.data b.data

/-- Insert one key/value pair into a key-sorted list. -/
def insertSorted (p : String × String) : List (String × String) → List (String × String)
  | [] => [p]
  | q :: qs => if strLe p.1 q.1 then p :: q :: qs else q :: insertSorted p qs

/-- Insertion sort by key. -/
def sortByKey : List (String × String) → List (String × String)
  | [] => []
  | p :: ps => insertSorted p (sortByKey ps)

/-- The payload fields, excluding the signature (`hash`) field, in struct
order. -/
def payloadFields (a : TelegramAuthData) : List (String × String) :=
  [("id", toString a.id),
   ("username", a.username),
   ("first_name", a.firstName),
   ("last_name", a.lastName),
   ("auth_date", toString a.authDate)]

/-- Join a list of strings with a separator. -/
def joinWith (sep : String) : List String → String
  | [] => ""
  | [x] => x
  | x :: xs => x ++ sep ++ joinWith sep xs

/-- The canonical newline-joined, key-sorted `key=value` rendering of the
payload fields, as the spec describes it. -/
def specSortedCheckString (a : TelegramAuthData) : String :=
  joinWith "\n" ((sortByKey (payloadFields a)).map (fun p => p.1 ++ "=" ++ p.2))

/-- Sorting the five payload fields yields them in key order. -/
theorem sortByKey_payloadFields (a : TelegramAuthData) :
    sortByKey (payloadFields a) =
      [("auth_date", toString a.authDate),
       ("first_name", a.firstName),
       ("id", toString a.id),
       ("last_name", a.lastName),
       ("username", a.username)] := rfl

/-- The canonical sorted rendering coincides with the source's
`fmt.Sprintf` data-check string. -/
theorem specSortedCheckString_eq (a : TelegramAuthData) :
    specSortedCheckString a = dataCheckString a := by
  unfold specSortedCheckString dataCheckString
  rw [sortByKey_payloadFields]
  simp only [List.map, joinWith]
  apply String.ext
  simp [String.data_append]

/-- C1: `ValidateTelegramAuth` returns true iff the payload is at most 300
seconds old (relative to the current Unix time) and the hex HMAC-SHA256,
keyed by the shared secret, of the newline-joined key-sorted rendering of
the payload fields (excluding `hash`) equals the payload's `hash` exactly;
in particular a payload older than 300 seconds is rejected even when its
signature is valid. -/
theorem validateTelegramAuth_spec (hmacHex : String → String → String) (now : Int)
    (a : TelegramAuthData) (botToken : String) :
    ValidateTelegramAuth hmacHex now a botToken = true ↔
      (now - a.authDate ≤ 300 ∧ hmacHex botToken (specSortedCheckString a) = a.hash) := by
  rw [ValidateTelegramAuth, specSortedCheckString_eq]
  by_cases h : now - a.authDate > 300
  · simp [h]
    omega
  · simp [h, beq_iff_eq]
    omega

/-! ## JWT model (auth_service.go + golang-jwt/v5) -/

/-- Signing algorithms a token header can declare.  The three HMAC
variants are the `jwt.SigningMethodHMAC` family; `RS256` and `none` are
representative non-HMAC methods. -/
inductive JwtAlg where
  | HS256
  | HS384
  | HS512
  | RS256
  | noAlg
  deriving DecidableEq, Repr

/-- Header name of each algorithm. -/
def JwtAlg.algName : JwtAlg → String
  | .HS256 => "HS256"
  | .HS384 => "HS384"
  | .HS512 => "HS512"
  | .RS256 => "RS256"
  | .noAlg => "none"

/-- Whether the method is in the HMAC family (the
`token.Method.(*jwt.SigningMethodHMAC)` type assertion in `ParseJWT`). -/
def JwtAlg.isHMAC : JwtAlg → Bool
  | .HS256 => true
  | .HS384 => true
  | .HS512 => true
  | .RS256 => false
  | .noAlg => false

/-- JSON claim values as Go's `encoding/json` decodes them into a
`jwt.MapClaims`.  JSON numbers (Go `float64`) are modelled as integers:
the service only ever writes integral claim values. -/
inductive JsonValue where
  | num (n : Int)
  | str (s : String)
  | jbool (b : Bool)
  | jnull
  deriving DecidableEq, Repr

/-- A decoded JWT: declared algorithm, claim map, signature.  This is the
structured view of the compact `header.payload.signature` serialization;
claim maps are key-unique association lists. -/
structure JwtToken where
  alg : JwtAlg
  claims : List (String × JsonValue)
  signature : String
  deriving DecidableEq, Repr

/-- Claim lookup (`claims["k"]`). -/
def lookupClaim (cs : List (String × JsonValue)) (k : String) : Option JsonValue :=
  (cs.find? (fun p => p.1 == k)).map (fun p => p.2)

/-- The defaulting type assertion `v, _ := claims["k"].(float64)`:
a missing or non-numeric claim silently becomes 0. -/
def numOr0 : Option JsonValue → Int
  | some (.num n) => n
  | _ => 0

/-- The defaulting type assertion `s, _ := claims["k"].(string)`:
a missing or non-string claim silently becomes the empty string. -/
def strOrEmpty : Option JsonValue → String
  | some (.str s) => s
  | _ => ""

/-- Rendering of a claim value inside the signing input. -/
def renderJson : JsonValue → String
  | .num n => toString n
  | .str s => "\"" ++ s ++ "\""
  | .jbool b => toString b
  | .jnull => "null"

/-- Modelled from the spec: the signing input of a token — the encoded
`header.payload` prefix of the compact serialization that the HMAC is
computed over (base64url encoding abstracted away; the missing part is the
golang-jwt/v5 serialization, which is not in the repository sources). -/
def signingInputOf (alg : JwtAlg) (cs : List (String × JsonValue)) : String :=
  alg.algName ++ "." ++ joinWith "," (cs.map (fun p => "\"" ++ p.1 ++ "\":" ++ renderJson p.2))

/-- Signing input of a decoded token. -/
def signingInput (t : JwtToken) : String :=
  signingInputOf t.alg t.claims

/-- Modelled from the spec: the golang-jwt/v5 default claims validation —
"fails with `Expired` when `exp` is in the past (checked ... at parse time
via the library)".  A missing `exp` claim is not required by the library's
default validator. -/
def expClaimExpired (now : Int) (cs : List (String × JsonValue)) : Bool :=
  match lookupClaim cs "exp" with
  | some (.num e) => decide (e < now)
  | _ => false

/-- Modelled from the spec: `jwt.Parse` with the keyfunc of
`authService.ParseJWT` — rejects any non-HMAC signing method (source
keyfunc), verifies the signature against the symmetric secret, and runs
the library's expiry validation; on success yields the claim map.
`hmacAlg alg key msg` abstracts the HMAC-family signature primitive. -/
def jwtParse (hmacAlg : JwtAlg → String → String → String) (secret : String)
    (now : Int) (t : JwtToken) : Except String (List (String × JsonValue)) :=
  if t.alg.isHMAC then
    if t.signature == hmacAlg t.alg secret (signingInput t) then
      if expClaimExpired now t.claims then
        .error "token is expired"
      else
        .ok t.claims
    else
      .error "signature is invalid"
  else
    .error ("неожиданный метод подписи: " ++ t.alg.algName)

/-- Mirror of `models.TokenClaims` (internal/models/auth.go). -/
structure TokenClaims where
  userID : Nat
  telegramID : Int
  role : String
  type : String
  exp : Int
  iat : Int
  jti : String
  deriving DecidableEq, Repr

/-- Embedding of `authService.ParseJWT` (auth_service.go): parse and
verify the token, then extract the claims with the defaulting type
assertions of the source (`uint(userID)` modelled as `Int.toNat`; the
claims written by this service are always non-negative). -/
def ParseJWT (hmacAlg : JwtAlg → String → String → String) (jwtSecret : String)
    (now : Int) (t : JwtToken) : Except String TokenClaims :=
  match jwtParse hmacAlg jwtSecret now t with
  | .error e => .error e
  | .ok claims =>
      .ok { userID := (numOr0 (lookupClaim claims "user_id")).toNat
            telegramID := numOr0 (lookupClaim claims "telegram_id")
            role := strOrEmpty (lookupClaim claims "role")
            type := strOrEmpty (lookupClaim claims "type")
            exp := numOr0 (lookupClaim claims "exp")
            iat := numOr0 (lookupClaim claims "iat")
            jti := strOrEmpty (lookupClaim claims "jti") }

/-- Mirror of `models.User` (auth-relevant fields). -/
structure User where
  id : Nat
  telegramID : Int
  username : String
  firstName : String
  lastName : String
  role : String
  isActive : Bool
  deriving DecidableEq, Repr

/-- Embedding of `generateJTI` (auth_service.go):
`fmt.Sprintf("%d_%d", time.Now().UnixNano(), time.Now().Unix())`. -/
def generateJTI (nowNano nowSec : Int) : String :=
  toString nowNano ++ "_" ++ toString nowSec

/-- Embedding of `authService.GenerateAccessToken` (auth_service.go).
`now` stands for `time.Now().Unix()` and `nowNano` for
`time.Now().UnixNano()` during the call. -/
def GenerateAccessToken (hmacAlg : JwtAlg → String → String → String)
    (jwtSecret : String) (now nowNano : Int) (user : User) : JwtToken :=
  let claims : List (String × JsonValue) :=
    [("user_id", .num user.id),
     ("telegram_id", .num user.telegramID),
     ("role", .str user.role),
     ("type", .str "access"),
     ("exp", .num (now + 15 * 60)),
     ("iat", .num now),
     ("jti", .str (generateJTI nowNano now))]
  { alg := .HS256, claims := claims,
    signature := hmacAlg .HS256 jwtSecret (signingInputOf .HS256 claims) }

/-- Embedding of `authService.GenerateRefreshToken` (auth_service.go). -/
def GenerateRefreshToken (hmacAlg : JwtAlg → String → String → String)
    (jwtSecret : String) (now nowNano : Int) (user : User) : JwtToken :=
  let claims : List (String × JsonValue) :=
    [("user_id", .num user.id),
     ("telegram_id", .num user.telegramID),
     ("type", .str "refresh"),
     ("exp", .num (now + 7 * 24 * 60 * 60)),
     ("iat", .num now),
     ("jti", .str (generateJTI nowNano now))]
  { alg := .HS256, claims := claims,
    signature := hmacAlg .HS256 jwtSecret (signingInputOf .HS256 claims) }

/-- Boolean error test for `Except`. -/
def exceptIsError {ε α : Type} : Except ε α → Bool
  | .error _ => true
  | .ok _ => false

/-- Whether an optional claim value is a JSON number. -/
def isNumClaim : Option JsonValue → Bool
  | some (.num _) => true
  | _ => false

/-- Whether an optional claim value is a JSON string. -/
def isStrClaim : Option JsonValue → Bool
  | some (.str _) => true
  | _ => false

theorem numOr0_of_not_num {o : Option JsonValue} (h : isNumClaim o = false) :
    numOr0 o = 0 := by
  match o with
  | none => rfl
  | some (.num n) => simp [isNumClaim] at h
  | some (.str _) => rfl
  | some (.jbool _) => rfl
  | some .jnull => rfl

theorem strOrEmpty_of_not_str {o : Option JsonValue} (h : isStrClaim o = false) :
    strOrEmpty o = "" := by
  match o with
  | none => rfl
  | some (.str _) => simp [isStrClaim] at h
  | some (.num _) => rfl
  | some (.jbool _) => rfl
  | some .jnull => rfl

theorem jwtParse_ok (hmacAlg : JwtAlg → String → String → String) (secret : String)
    (now : Int) (t : JwtToken)
    (h1 : t.alg.isHMAC = true)
    (h2 : t.signature = hmacAlg t.alg secret (signingInput t))
    (h3 : expClaimExpired now t.claims = false) :
    jwtParse hmacAlg secret now t = .ok t.claims := by
  unfold jwtParse
  simp [h1, h2, h3]

/-- C2: `ParseJWT` returns an error whenever the declared algorithm is
outside the HMAC family (including "none") or the signature does not
verify against the service secret; consequently a token signed with a
different secret fails whenever the two HMAC values differ (the collision
freeness of HMAC-SHA256 across keys is a cryptographic assumption outside
the embedding). -/
theorem parseJWT_rejects (hmacAlg : JwtAlg → String → String → String)
    (secret : String) (now : Int) (t : JwtToken) :
    ((t.alg.isHMAC = false ∨ t.signature ≠ hmacAlg t.alg secret (signingInput t)) →
      exceptIsError (ParseJWT hmacAlg secret now t) = true)
    ∧ (∀ secret2, t.signature = hmacAlg t.alg secret2 (signingInput t) →
        hmacAlg t.alg secret2 (signingInput t) ≠ hmacAlg t.alg secret (signingInput t) →
        exceptIsError (ParseJWT hmacAlg secret now t) = true) := by
  have main : (t.alg.isHMAC = false ∨ t.signature ≠ hmacAlg t.alg secret (signingInput t)) →
      exceptIsError (ParseJWT hmacAlg secret now t) = true := by
    intro h
    unfold ParseJWT jwtParse
    by_cases hA : t.alg.isHMAC = true
    · rcases h with h | h
      · rw [hA] at h
        cases h
      · have hb : (t.signature == hmacAlg t.alg secret (signingInput t)) = false := by
          simp [h]
        simp [hA, hb, exceptIsError]
    · have hA2 : t.alg.isHMAC = false := by
        simpa using hA
      simp [hA2, exceptIsError]
  refine ⟨main, fun secret2 h1 h2 => main (Or.inr ?_)⟩
  rw [h1]
  exact h2

/-- C2 witness: a token with algorithm "none" is rejected. -/
theorem parseJWT_rejects_witness :
    (JwtAlg.noAlg.isHMAC = false ∨
      ("x" : String) ≠ (fun _ _ _ => "m") JwtAlg.noAlg "s"
        (signingInput ⟨JwtAlg.noAlg, [], "x"⟩))
    ∧ exceptIsError (ParseJWT (fun _ _ _ => "m") "s" 0 ⟨JwtAlg.noAlg, [], "x"⟩) = true :=
  ⟨Or.inl rfl, (parseJWT_rejects (fun _ _ _ => "m") "s" 0 ⟨JwtAlg.noAlg, [], "x"⟩).1 (Or.inl rfl)⟩

/-- C5: issuing an access token and immediately parsing it succeeds and
yields claims with type "access" and `exp - iat = 900`; likewise a
refresh token yields type "refresh" and `exp - iat = 7*24*3600`. -/
theorem issue_then_parse_roundtrip (hmacAlg : JwtAlg → String → String → String)
    (secret : String) (now nowNano : Int) (user : User) :
    (∃ c, ParseJWT hmacAlg secret now (GenerateAccessToken hmacAlg secret now nowNano user) = .ok c
          ∧ c.type = "access" ∧ c.exp - c.iat = 900)
    ∧ (∃ c, ParseJWT hmacAlg secret now (GenerateRefreshToken hmacAlg secret now nowNano user) = .ok c
          ∧ c.type = "refresh" ∧ c.exp - c.iat = 7 * 24 * 3600) := by
  constructor
  · have hp := jwtParse_ok hmacAlg secret now
      (GenerateAccessToken hmacAlg secret now nowNano user) rfl rfl
      (by
        unfold expClaimExpired
        rw [show lookupClaim (GenerateAccessToken hmacAlg secret now nowNano user).claims "exp"
              = some (.num (now + 15 * 60)) from rfl]
        show decide (now + 15 * 60 < now) = false
        simp only [decide_eq_false_iff_not]
        omega)
    unfold ParseJWT
    rw [hp]
    exact ⟨_, rfl, rfl, by
      show (now + 15 * 60) - now = 900
      omega⟩
  · have hp := jwtParse_ok hmacAlg secret now
      (GenerateRefreshToken hmacAlg secret now nowNano user) rfl rfl
      (by
        unfold expClaimExpired
        rw [show lookupClaim (GenerateRefreshToken hmacAlg secret now nowNano user).claims "exp"
              = some (.num (now + 7 * 24 * 60 * 60)) from rfl]
        show decide (now + 7 * 24 * 60 * 60 < now) = false
        simp only [decide_eq_false_iff_not]
        omega)
    unfold ParseJWT
    rw [hp]
    exact ⟨_, rfl, rfl, by
      show (now + 7 * 24 * 60 * 60) - now = 7 * 24 * 3600
      omega⟩

/-- C10 counterexample: a token with a valid HMAC signature and a
non-numeric `user_id` claim whose `exp` is in the past makes `ParseJWT`
fail, so the claim's unconditional "nevertheless returns successfully"
does not hold (the library validates `exp` at parse time). -/
theorem parseJWT_defaulting_cex :
    exceptIsError (ParseJWT (fun _ _ _ => "sig") "secret" 1000
      ⟨JwtAlg.HS256, [("user_id", JsonValue.str "oops"), ("exp", JsonValue.num 5)], "sig"⟩) = true := by
  decide

/-- C10 (amended): for a token with a valid HMAC signature that passes
the parse-time expiry validation, a missing or non-numeric `user_id`
claim silently defaults the `UserID` field to 0, and missing or
non-string `role`/`type`/`jti` claims default to the empty string, with
the parse still succeeding. -/
theorem parseJWT_defaulting (hmacAlg : JwtAlg → String → String → String)
    (secret : String) (now : Int) (t : JwtToken)
    (h1 : t.alg.isHMAC = true)
    (h2 : t.signature = hmacAlg t.alg secret (signingInput t))
    (h3 : expClaimExpired now t.claims = false) :
    ∃ c, ParseJWT hmacAlg secret now t = .ok c
      ∧ (isNumClaim (lookupClaim t.claims "user_id") = false → c.userID = 0)
      ∧ (isStrClaim (lookupClaim t.claims "role") = false → c.role = "")
      ∧ (isStrClaim (lookupClaim t.claims "type") = false → c.type = "")
      ∧ (isStrClaim (lookupClaim t.claims "jti") = false → c.jti = "") := by
  unfold ParseJWT
  rw [jwtParse_ok hmacAlg secret now t h1 h2 h3]
  refine ⟨_, rfl, ?_, ?_, ?_, ?_⟩
  · intro h
    show (numOr0 (lookupClaim t.claims "user_id")).toNat = 0
    rw [numOr0_of_not_num h]
    rfl
  · intro h
    exact strOrEmpty_of_not_str h
  · intro h
    exact strOrEmpty_of_not_str h
  · intro h
    exact strOrEmpty_of_not_str h

/-- C10 witness: a validly signed, unexpired token whose `user_id` claim
is the string "oops" parses successfully with `UserID = 0`. -/
theorem parseJWT_defaulting_witness :
    isNumClaim (lookupClaim [("user_id", JsonValue.str "oops")] "user_id") = false
    ∧ ∃ c, ParseJWT (fun _ _ _ => "sig") "secret" 0
        ⟨JwtAlg.HS256, [("user_id", JsonValue.str "oops")], "sig"⟩ = .ok c
        ∧ c.userID = 0 := by
  refine ⟨rfl, ?_⟩
  obtain ⟨c, hok, hu, _⟩ := parseJWT_defaulting (fun _ _ _ => "sig") "secret" 0
    ⟨JwtAlg.HS256, [("user_id", JsonValue.str "oops")], "sig"⟩ rfl rfl rfl
  exact ⟨c, hok, hu rfl⟩

/-! ## Refresh-token store (auth_service.go, Redis-backed) -/

/-- A cache entry: stored value and remaining TTL in seconds. -/
structure CacheEntry where
  value : String
  ttl : Int
  deriving DecidableEq, Repr

/-- The key-value cache, modelled as an association list keyed by the
Redis key (first match wins; `redisSet` keeps keys unique). -/
def Cache := List (String × CacheEntry)

instance : DecidableEq Cache := by
  unfold Cache
  infer_instance

/-- Redis `GET`: the stored value for a key, if present. -/
def redisGet (c : Cache) (k : String) : Option String :=
  ((c.find? (fun p => p.1 == k)).map (fun p => p.2)).map (fun e => e.value)

/-- The full entry stored for a key (value and TTL). -/
def redisGetEntry (c : Cache) (k : String) : Option CacheEntry :=
  (c.find? (fun p => p.1 == k)).map (fun p => p.2)

/-- Redis `SET` with TTL: replaces any entry for the key. -/
def redisSet (c : Cache) (k v : String) (ttl : Int) : Cache :=
  (k, ⟨v, ttl⟩) :: c.filter (fun p => p.1 != k)

/-- Redis `DEL`. -/
def redisDel (c : Cache) (k : String) : Cache :=
  c.filter (fun p => p.1 != k)

/-- The key format `fmt.Sprintf("refresh_token:%d", userID)`. -/
def refreshKey (userID : Nat) : String :=
  "refresh_token:" ++ toString userID

/-- Seven days in seconds (`7 * 24 * time.Hour` as a TTL). -/
def sevenDays : Int := 7 * 24 * 60 * 60

/-- Embedding of `authService.StoreRefreshToken`: nil client is a no-op
success; otherwise `SET key token 7d`. -/
def StoreRefreshToken (rdb : Option Cache) (userID : Nat) (refreshToken : String) :
    Except String Unit × Option Cache :=
  match rdb with
  | none => (.ok (), none)
  | some c => (.ok (), some (redisSet c (refreshKey userID) refreshToken sevenDays))

/-- Embedding of `authService.IsRefreshTokenValid`: nil client trusts the
token; otherwise true iff the stored value exists and equals the token. -/
def IsRefreshTokenValid (rdb : Option Cache) (userID : Nat) (refreshToken : String) : Bool :=
  match rdb with
  | none => true
  | some c =>
      match redisGet c (refreshKey userID) with
      | none => false
      | some stored => stored == refreshToken

/-- The `GET` step of `UpdateRefreshToken` (first cache round-trip). -/
def rotateRead (c : Cache) (userID : Nat) : Option String :=
  redisGet c (refreshKey userID)

/-- The compare-and-`SET` step of `UpdateRefreshToken` (second cache
round-trip), acting on whatever value the earlier `GET` observed. -/
def rotateWrite (c : Cache) (userID : Nat) (oldToken newToken : String)
    (observed : Option String) : Except String Unit × Cache :=
  match observed with
  | none => (.error "невалидный refresh token", c)
  | some stored =>
      if stored == oldToken then
        (.ok (), redisSet c (refreshKey userID) newToken sevenDays)
      else
        (.error "невалидный refresh token", c)

/-- Embedding of `authService.UpdateRefreshToken`: nil client is a no-op
success; otherwise a `GET` followed by a separate conditional `SET`. -/
def UpdateRefreshToken (rdb : Option Cache) (userID : Nat) (oldToken newToken : String) :
    Except String Unit × Option Cache :=
  match rdb with
  | none => (.ok (), none)
  | some c =>
      let r := rotateWrite c userID oldToken newToken (rotateRead c userID)
      (r.1, some r.2)

/-- Embedding of `authService.RevokeRefreshToken`: nil client is a no-op
success; otherwise `DEL key`. -/
def RevokeRefreshToken (rdb : Option Cache) (userID : Nat) :
    Except String Unit × Option Cache :=
  match rdb with
  | none => (.ok (), none)
  | some c => (.ok (), some (redisDel c (refreshKey userID)))

theorem redisGetEntry_set (c : Cache) (k v : String) (ttl : Int) :
    redisGetEntry (redisSet c k v ttl) k = some ⟨v, ttl⟩ := by
  unfold redisGetEntry redisSet
  simp [List.find?]

/-- C3: with the cache present, `UpdateRefreshToken` fails iff the stored
value for `refresh_token:<userID>` is absent or differs from `oldToken`,
leaving the cache unchanged in that case; when the stored value equals
`oldToken` the call succeeds and the entry is replaced by `newToken` with
the TTL reset to 7 days. -/
theorem updateRefreshToken_spec (c : Cache) (userID : Nat) (oldToken newToken : String) :
    (exceptIsError (UpdateRefreshToken (some c) userID oldToken newToken).1 = true
      ↔ redisGet c (refreshKey userID) ≠ some oldToken)
    ∧ (redisGet c (refreshKey userID) ≠ some oldToken →
        (UpdateRefreshToken (some c) userID oldToken newToken).2 = some c)
    ∧ (redisGet c (refreshKey userID) = some oldToken →
        (UpdateRefreshToken (some c) userID oldToken newToken).1 = .ok ()
        ∧ (UpdateRefreshToken (some c) userID oldToken newToken).2
            = some (redisSet c (refreshKey userID) newToken sevenDays)
        ∧ redisGetEntry (redisSet c (refreshKey userID) newToken sevenDays) (refreshKey userID)
            = some ⟨newToken, sevenDays⟩) := by
  unfold UpdateRefreshToken rotateRead
  dsimp only
  cases hg : redisGet c (refreshKey userID) with
  | none =>
      simp [rotateWrite, exceptIsError]
  | some stored =>
      by_cases he : stored = oldToken
      · subst he
        simp [rotateWrite, exceptIsError, redisGetEntry_set]
      · have hb : (stored == oldToken) = false := by
          simp [he]
        simp [rotateWrite, hb, exceptIsError, he]

/-- C3 witness: a concrete rotation where the stored value matches. -/
theorem updateRefreshToken_witness :
    redisGet [(refreshKey 7, ⟨"o", sevenDays⟩)] (refreshKey 7) = some "o"
    ∧ (UpdateRefreshToken (some [(refreshKey 7, ⟨"o", sevenDays⟩)]) 7 "o" "n").1 = .ok ()
    ∧ exceptIsError (UpdateRefreshToken (some [(refreshKey 7, ⟨"o", sevenDays⟩)]) 7 "x" "n").1 = true := by
  refine ⟨by decide, ((updateRefreshToken_spec [(refreshKey 7, ⟨"o", sevenDays⟩)] 7 "o" "n").2.2 (by decide)).1, ?_⟩
  exact (updateRefreshToken_spec [(refreshKey 7, ⟨"o", sevenDays⟩)] 7 "x" "n").1.mpr (by decide)

/-- C4: the rotation in the source is a separate `GET` followed by a
separate `SET`, so two interleaved calls presenting the same `oldToken`
can both read before either writes and then both succeed — refuting the
claim that exactly one of the two concurrent calls succeeds. -/
theorem rotate_race_both_succeed :
    (rotateWrite [(refreshKey 1, ⟨"old", sevenDays⟩)] 1 "old" "newA"
        (rotateRead [(refreshKey 1, ⟨"old", sevenDays⟩)] 1)).1 = .ok ()
    ∧ (rotateWrite
          (rotateWrite [(refreshKey 1, ⟨"old", sevenDays⟩)] 1 "old" "newA"
            (rotateRead [(refreshKey 1, ⟨"old", sevenDays⟩)] 1)).2
          1 "old" "newB"
          (rotateRead [(refreshKey 1, ⟨"old", sevenDays⟩)] 1)).1 = .ok ()
    ∧ redisGet
        (rotateWrite
          (rotateWrite [(refreshKey 1, ⟨"old", sevenDays⟩)] 1 "old" "newA"
            (rotateRead [(refreshKey 1, ⟨"old", sevenDays⟩)] 1)).2
          1 "old" "newB"
          (rotateRead [(refreshKey 1, ⟨"old", sevenDays⟩)] 1)).2
        (refreshKey 1) = some "newB" :=
  ⟨rfl, rfl, rfl⟩

/-- The split into `rotateRead`/`rotateWrite` composes back to the
source's `UpdateRefreshToken` when the two steps run without
interleaving. -/
theorem updateRefreshToken_eq_read_then_write (c : Cache) (userID : Nat)
    (oldToken newToken : String) :
    UpdateRefreshToken (some c) userID oldToken newToken =
      ((rotateWrite c userID oldToken newToken (rotateRead c userID)).1,
       some (rotateWrite c userID oldToken newToken (rotateRead c userID)).2) := rfl

/-- C6: every refresh-token operation is a no-op success when the cache
client is nil, `IsRefreshTokenValid` degrades to true, and with the cache
present it is true iff the stored value exists and equals the token. -/
theorem nilCache_and_isValid_spec (userID : Nat) (tok oldTok newTok : String) (c : Cache) :
    StoreRefreshToken none userID tok = (.ok (), none)
    ∧ UpdateRefreshToken none userID oldTok newTok = (.ok (), none)
    ∧ RevokeRefreshToken none userID = (.ok (), none)
    ∧ IsRefreshTokenValid none userID tok = true
    ∧ (IsRefreshTokenValid (some c) userID tok = true
        ↔ redisGet c (refreshKey userID) = some tok) := by
  refine ⟨rfl, rfl, rfl, rfl, ?_⟩
  unfold IsRefreshTokenValid
  dsimp only
  cases hg : redisGet c (refreshKey userID) with
  | none => simp
  | some stored => simp [beq_iff_eq]

/-! ## RBAC model (internal/models/role.go, role_repository.go, role_service.go) -/

/-- Mirror of `models.Role`. -/
structure Role where
  id : Nat
  name : String
  displayName : String
  description : String
  isActive : Bool
  permissions : String
  deriving DecidableEq, Repr

/-- Mirror of `models.UserRole` (the user↔role join entity). -/
structure UserRole where
  userID : Nat
  roleID : Nat
  assignedBy : Nat
  assignedAt : Int
  isActive : Int
  deriving DecidableEq, Repr

/-- The role store backing `roleRepository`: the `roles` and `user_roles`
tables, rows in insertion (primary-key) order. -/
structure RoleDB where
  roles : List Role
  userRoles : List UserRole
  deriving DecidableEq, Repr

/-- Embedding of `roleRepository.GetRoleByID` (`db.First(&role, id)`). -/
def GetRoleByID (db : RoleDB) (id : Nat) : Option Role :=
  db.roles.find? (fun r => r.id == id)

/-- Embedding of `roleRepository.GetRoleByName`
(`db.Where("name = ?", name).First`). -/
def GetRoleByName (db : RoleDB) (name : String) : Option Role :=
  db.roles.find? (fun r => r.name == name)

/-- Embedding of `roleRepository.HasUserRole`: resolve the role by name
(false when absent), then count active assignments for the pair. -/
def HasUserRole (db : RoleDB) (userID : Nat) (roleName : String) : Bool :=
  match GetRoleByName db roleName with
  | none => false
  | some role =>
      decide (0 < db.userRoles.countP
        (fun ur => ur.userID == userID && ur.roleID == role.id && ur.isActive == 1))

/-- Embedding of `roleRepository.AssignRoleToUser`: insert an active
assignment stamped with the assigning user and the current time. -/
def repoAssignRoleToUser (db : RoleDB) (userID roleID assignedBy : Nat) (now : Int) : RoleDB :=
  { db with userRoles := db.userRoles ++ [⟨userID, roleID, assignedBy, now, 1⟩] }

/-- Embedding of `roleService.AssignRoleToUser` (role_service.go): load
the role (not-found error if missing), reject when the user already has
an active assignment of that role's name, otherwise create it. -/
def AssignRoleToUser (db : RoleDB) (userID roleID assignedBy : Nat) (now : Int) :
    Except String Unit × RoleDB :=
  match GetRoleByID db roleID with
  | none => (.error "роль не найдена", db)
  | some role =>
      if HasUserRole db userID role.name then
        (.error "роль уже назначена пользователю", db)
      else
        (.ok (), repoAssignRoleToUser db userID roleID assignedBy now)

theorem getRoleByID_mem {db : RoleDB} {id : Nat} {role : Role}
    (h : GetRoleByID db id = some role) : role ∈ db.roles ∧ role.id = id := by
  unfold GetRoleByID at h
  refine ⟨List.mem_of_find?_eq_some h, ?_⟩
  have := List.find?_some h
  simpa using this

theorem find?_name_of_nodup : ∀ (l : List Role) (r : Role),
    (l.map Role.name).Nodup → r ∈ l →
    l.find? (fun x => x.name == r.name) = some r := by
  intro l
  induction l with
  | nil => intro r _ hm; cases hm
  | cons a l ih =>
      intro r hnd hm
      rw [List.map_cons] at hnd
      have hnd2 := List.nodup_cons.mp hnd
      rcases List.mem_cons.mp hm with he | hm2
      · subst he
        simp [List.find?]
      · have hne : (a.name == r.name) = false := by
          have h1 : r.name ∈ l.map Role.name := List.mem_map_of_mem Role.name hm2
          have h2 : a.name ≠ r.name := fun hEq => hnd2.1 (hEq ▸ h1)
          simp [h2]
        rw [List.find?]
        rw [hne]
        exact ih r hnd2.2 hm2

theorem getRoleByName_of_nodup {db : RoleDB} {role : Role}
    (hnd : (db.roles.map Role.name).Nodup) (hm : role ∈ db.roles) :
    GetRoleByName db role.name = some role :=
  find?_name_of_nodup db.roles role hnd hm

theorem hasUserRole_after_assign {db : RoleDB} {role : Role} {userID roleID assignedBy : Nat}
    {now : Int} (hnd : (db.roles.map Role.name).Nodup) (hm : role ∈ db.roles)
    (hid : role.id = roleID) :
    HasUserRole (repoAssignRoleToUser db userID roleID assignedBy now) userID role.name = true := by
  unfold HasUserRole repoAssignRoleToUser
  have hfind : GetRoleByName { db with userRoles := db.userRoles ++ [⟨userID, roleID, assignedBy, now, 1⟩] } role.name
      = some role := getRoleByName_of_nodup hnd hm
  rw [hfind]
  have hpred : (fun ur : UserRole => ur.userID == userID && ur.roleID == role.id && ur.isActive == 1)
      ⟨userID, roleID, assignedBy, now, 1⟩ = true := by
    simp [hid]
  dsimp only
  rw [List.countP_append]
  have hone : List.countP
      (fun ur : UserRole => ur.userID == userID && ur.roleID == role.id && ur.isActive == 1)
      [⟨userID, roleID, assignedBy, now, 1⟩] = 1 := by
    simp [List.countP, List.countP.go, hpred, hid]
  rw [hone]
  simp

/-- C7: `AssignRoleToUser` fails with not-found when no role has the
given id, fails with already-assigned when the user already has an
active assignment of the role's name, and otherwise appends an active
assignment stamped with the assigning user and the current time; a second
call with the same user and role then fails while `HasUserRole` is true
after the first call and remains true after the failed second call (role
names are assumed unique, the model's bootstrap invariant). -/
theorem assignRoleToUser_spec (db : RoleDB) (userID roleID assignedBy assignedBy2 : Nat)
    (now now2 : Int) (hnodup : (db.roles.map Role.name).Nodup) :
    (GetRoleByID db roleID = none →
      AssignRoleToUser db userID roleID assignedBy now = (.error "роль не найдена", db))
    ∧ (∀ role, GetRoleByID db roleID = some role →
        (HasUserRole db userID role.name = true →
          AssignRoleToUser db userID roleID assignedBy now
            = (.error "роль уже назначена пользователю", db))
        ∧ (HasUserRole db userID role.name = false →
            AssignRoleToUser db userID roleID assignedBy now
              = (.ok (), repoAssignRoleToUser db userID roleID assignedBy now)
            ∧ HasUserRole (repoAssignRoleToUser db userID roleID assignedBy now) userID role.name = true
            ∧ AssignRoleToUser (repoAssignRoleToUser db userID roleID assignedBy now)
                userID roleID assignedBy2 now2
              = (.error "роль уже назначена пользователю",
                 repoAssignRoleToUser db userID roleID assignedBy now))) := by
  constructor
  · intro h
    unfold AssignRoleToUser
    rw [h]
  · intro role hrole
    obtain ⟨hmem, hid⟩ := getRoleByID_mem hrole
    constructor
    · intro hHas
      unfold AssignRoleToUser
      rw [hrole]
      simp [hHas]
    · intro hNot
      have hfirst : AssignRoleToUser db userID roleID assignedBy now
          = (.ok (), repoAssignRoleToUser db userID roleID assignedBy now) := by
        unfold AssignRoleToUser
        rw [hrole]
        simp [hNot]
      have hafter : HasUserRole (repoAssignRoleToUser db userID roleID assignedBy now)
          userID role.name = true :=
        hasUserRole_after_assign hnodup hmem hid
      refine ⟨hfirst, hafter, ?_⟩
      have hrole2 : GetRoleByID (repoAssignRoleToUser db userID roleID assignedBy now) roleID
          = some role := hrole
      unfold AssignRoleToUser
      rw [hrole2]
      simp [hafter]

/-- C7 witness: assigning role 1 ("client") to user 5 succeeds on a store
with one role and no assignments, and the follow-up facts hold there. -/
theorem assignRoleToUser_witness :
    GetRoleByID ⟨[⟨1, "client", "Клиент", "Запись на услуги", true, "p"⟩], []⟩ 1
      = some ⟨1, "client", "Клиент", "Запись на услуги", true, "p"⟩
    ∧ HasUserRole ⟨[⟨1, "client", "Клиент", "Запись на услуги", true, "p"⟩], []⟩ 5 "client" = false
    ∧ (AssignRoleToUser ⟨[⟨1, "client", "Клиент", "Запись на услуги", true, "p"⟩], []⟩ 5 1 2 100).1
      = .ok ()
    ∧ HasUserRole (repoAssignRoleToUser ⟨[⟨1, "client", "Клиент", "Запись на услуги", true, "p"⟩], []⟩ 5 1 2 100)
        5 "client" = true
    ∧ exceptIsError (AssignRoleToUser
        (repoAssignRoleToUser ⟨[⟨1, "client", "Клиент", "Запись на услуги", true, "p"⟩], []⟩ 5 1 2 100)
        5 1 3 200).1 = true := by
  obtain ⟨hok, hafter, hsecond⟩ :=
    ((assignRoleToUser_spec ⟨[⟨1, "client", "Клиент", "Запись на услуги", true, "p"⟩], []⟩
        5 1 2 3 100 200 (by decide)).2
      ⟨1, "client", "Клиент", "Запись на услуги", true, "p"⟩ rfl).2 (by decide)
  refine ⟨rfl, by decide, by rw [hok], hafter, by rw [hsecond]; rfl⟩

/-! ## Role bootstrap (internal/migrations/001_create_initial_roles.go) -/

/-- Next auto-increment primary key for the `roles` table. -/
def nextRoleId (rs : List Role) : Nat :=
  rs.foldr (fun r m => max r.id m) 0 + 1

/-- Embedding of `roleRepository`-level role creation (`db.Create(&role)`):
append the row with a fresh auto-increment id. -/
def createRole (db : RoleDB) (r : Role) : RoleDB :=
  { db with roles := db.roles ++ [{ r with id := nextRoleId db.roles }] }

/-- The `admin` seed role of `CreateInitialRoles`. -/
def adminRole : Role :=
  { id := 0, name := "admin", displayName := "Администратор",
    description := "Полный доступ к системе", isActive := true,
    permissions := "\x7b\"users\": [\"create\", \"read\", \"update\", \"delete\"], \"barbers\": [\"create\", \"read\", \"update\", \"delete\"], \"appointments\": [\"create\", \"read\", \"update\", \"delete\"]\x7d" }

/-- The `barber` seed role of `CreateInitialRoles`. -/
def barberRole : Role :=
  { id := 0, name := "barber", displayName := "Барбер",
    description := "Управление записями и профилем", isActive := true,
    permissions := "\x7b\"appointments\": [\"create\", \"read\", \"update\"], \"profile\": [\"read\", \"update\"]\x7d" }

/-- The `client` seed role of `CreateInitialRoles`. -/
def clientRole : Role :=
  { id := 0, name := "client", displayName := "Клиент",
    description := "Запись на услуги", isActive := true,
    permissions := "\x7b\"appointments\": [\"create\", \"read\"], \"profile\": [\"read\", \"update\"]\x7d" }

/-- The seed list, in the order the migration iterates it. -/
def initialRoles : List Role :=
  [adminRole, barberRole, clientRole]

/-- One iteration of the `CreateInitialRoles` loop: look up the role by
name; create it only when the lookup reports record-not-found. -/
def bootstrapStep (db : RoleDB) (r : Role) : RoleDB :=
  match GetRoleByName db r.name with
  | some _ => db
  | none => createRole db r

/-- Embedding of `migrations.CreateInitialRoles`: iterate the three seed
roles, skipping any whose name already exists (the model store itself
never fails, so every run returns nil). -/
def CreateInitialRoles (db : RoleDB) : Except String Unit × RoleDB :=
  (.ok (), initialRoles.foldl bootstrapStep db)

theorem bootstrapStep_preserves {db : RoleDB} {r : Role} {n : String}
    (h : (GetRoleByName db n).isSome = true) :
    (GetRoleByName (bootstrapStep db r) n).isSome = true := by
  unfold bootstrapStep
  cases hf : GetRoleByName db r.name with
  | some x => exact h
  | none =>
      unfold GetRoleByName at h
      unfold GetRoleByName createRole
      dsimp only
      rw [List.find?_append]
      cases hx : db.roles.find? (fun x => x.name == n) with
      | some y => simp [Option.or]
      | none => rw [hx] at h; simp at h

theorem bootstrapStep_adds (db : RoleDB) (r : Role) :
    (GetRoleByName (bootstrapStep db r) r.name).isSome = true := by
  unfold bootstrapStep
  cases hf : GetRoleByName db r.name with
  | some x =>
      dsimp only
      rw [hf]
      rfl
  | none =>
      unfold GetRoleByName at hf
      unfold GetRoleByName createRole
      dsimp only
      rw [List.find?_append, hf]
      simp [Option.or, List.find?]

theorem bootstrapStep_skips {db : RoleDB} {r : Role}
    (h : (GetRoleByName db r.name).isSome = true) :
    bootstrapStep db r = db := by
  unfold bootstrapStep
  cases hf : GetRoleByName db r.name with
  | some x => rfl
  | none => rw [hf] at h; cases h

set_option maxRecDepth 10000 in
/-- C9: running the role bootstrap twice starting from an empty store
yields exactly the three roles `admin`, `barber`, `client` with their
fixed permission descriptors and no duplicate names; and in general a
second run on any store is a no-op success, because creation skips any
role whose name already exists. -/
theorem createInitialRoles_idempotent :
    (∀ db : RoleDB, CreateInitialRoles (CreateInitialRoles db).2 = (.ok (), (CreateInitialRoles db).2))
    ∧ ((CreateInitialRoles (CreateInitialRoles ⟨[], []⟩).2).2.roles.map
          (fun r => (r.name, r.permissions))
        = [("admin", adminRole.permissions),
           ("barber", barberRole.permissions),
           ("client", clientRole.permissions)])
    ∧ ((CreateInitialRoles (CreateInitialRoles ⟨[], []⟩).2).2.roles.map Role.name).Nodup := by
  refine ⟨?_, by decide, by decide⟩
  intro db
  have hstep : (CreateInitialRoles db).2
      = bootstrapStep (bootstrapStep (bootstrapStep db adminRole) barberRole) clientRole := rfl
  have hadmin : (GetRoleByName (CreateInitialRoles db).2 adminRole.name).isSome = true := by
    rw [hstep]
    exact bootstrapStep_preserves (bootstrapStep_preserves (bootstrapStep_adds db adminRole))
  have hbarber : (GetRoleByName (CreateInitialRoles db).2 barberRole.name).isSome = true := by
    rw [hstep]
    exact bootstrapStep_preserves (bootstrapStep_adds (bootstrapStep db adminRole) barberRole)
  have hclient : (GetRoleByName (CreateInitialRoles db).2 clientRole.name).isSome = true := by
    rw [hstep]
    exact bootstrapStep_adds (bootstrapStep (bootstrapStep db adminRole) barberRole) clientRole
  have hfold : CreateInitialRoles (CreateInitialRoles db).2
      = (.ok (), bootstrapStep (bootstrapStep (bootstrapStep (CreateInitialRoles db).2 adminRole)
          barberRole) clientRole) := rfl
  rw [hfold, bootstrapStep_skips hadmin, bootstrapStep_skips hbarber, bootstrapStep_skips hclient]

/-! ## AuthenticateUser (auth_service.go + user_repository.go) -/

/-- The state `AuthenticateUser` acts on: the `users` table plus the role
store (which the function never touches — it holds no reference to the
role repository). -/
structure AppState where
  users : List User
  roleDB : RoleDB
  deriving DecidableEq, Repr

/-- Embedding of `userRepository.GetByTelegramID`
(`db.Where("telegram_id = ?", id).First`). -/
def GetByTelegramID (users : List User) (telegramID : Int) : Option User :=
  users.find? (fun u => u.telegramID == telegramID)

/-- Embedding of `userRepository.Update` (`db.Save(user)`): replace the
row with the matching primary key. -/
def updateUser (users : List User) (u : User) : List User :=
  users.map (fun v => if v.id == u.id then u else v)

/-- Next auto-increment primary key for the `users` table. -/
def nextUserId (users : List User) : Nat :=
  users.foldr (fun u m => max u.id m) 0 + 1

/-- Embedding of `authService.AuthenticateUser` (auth_service.go): find
the user by Telegram id; on success refresh the mutable profile fields,
mark active and persist; otherwise create a new active user with the
payload's identity fields and the literal `Role: "client"`. -/
def AuthenticateUser (st : AppState) (authData : TelegramAuthData) :
    Except String User × AppState :=
  match GetByTelegramID st.users authData.id with
  | some user =>
      let user2 : User :=
        { user with username := authData.username, firstName := authData.firstName,
                    lastName := authData.lastName, isActive := true }
      (.ok user2, { st with users := updateUser st.users user2 })
  | none =>
      let newUser : User :=
        { id := nextUserId st.users, telegramID := authData.id,
          username := authData.username, firstName := authData.firstName,
          lastName := authData.lastName, role := "client", isActive := true }
      (.ok newUser, { st with users := st.users ++ [newUser] })

/-- C8 counterexample: authenticating an unknown Telegram id against a
store that has the `client` role creates the user with the literal Role
field "client" but records no RBAC assignment — the role store is
untouched and `HasUserRole` stays false for the new user — so "assigned
via the RBAC Engine" fails at this input. -/
theorem authenticateUser_rbac_cex :
    (AuthenticateUser ⟨[], ⟨[⟨1, "client", "Клиент", "Запись на услуги", true, "p"⟩], []⟩⟩
        ⟨42, "u", "f", "l", 0, "h"⟩).1
      = .ok ⟨1, 42, "u", "f", "l", "client", true⟩
    ∧ (AuthenticateUser ⟨[], ⟨[⟨1, "client", "Клиент", "Запись на услуги", true, "p"⟩], []⟩⟩
        ⟨42, "u", "f", "l", 0, "h"⟩).2.roleDB
      = ⟨[⟨1, "client", "Клиент", "Запись на услуги", true, "p"⟩], []⟩
    ∧ HasUserRole (AuthenticateUser ⟨[], ⟨[⟨1, "client", "Клиент", "Запись на услуги", true, "p"⟩], []⟩⟩
        ⟨42, "u", "f", "l", 0, "h"⟩).2.roleDB 1 "client" = false := by
  refine ⟨rfl, rfl, by decide⟩

/-- C8 (amended): when a user with the payload's Telegram id exists,
`AuthenticateUser` refreshes username/first/last name, marks the user
active, persists via the repository update (creating no one — the table
length is unchanged) and returns the updated user; when none exists it
appends and returns a new active user carrying the payload's identity
fields whose legacy `Role` field is the literal "client" — no assignment
is made through the RBAC Engine, whose store passes through unchanged. -/
theorem authenticateUser_spec (st : AppState) (a : TelegramAuthData) :
    (∀ u, GetByTelegramID st.users a.id = some u →
      ∃ u2, AuthenticateUser st a = (.ok u2, ⟨updateUser st.users u2, st.roleDB⟩)
        ∧ u2.username = a.username ∧ u2.firstName = a.firstName
        ∧ u2.lastName = a.lastName ∧ u2.isActive = true
        ∧ u2.id = u.id ∧ u2.telegramID = u.telegramID ∧ u2.role = u.role
        ∧ (updateUser st.users u2).length = st.users.length)
    ∧ (GetByTelegramID st.users a.id = none →
      ∃ u2, AuthenticateUser st a = (.ok u2, ⟨st.users ++ [u2], st.roleDB⟩)
        ∧ u2.telegramID = a.id ∧ u2.username = a.username
        ∧ u2.firstName = a.firstName ∧ u2.lastName = a.lastName
        ∧ u2.role = "client" ∧ u2.isActive = true)
    ∧ (AuthenticateUser st a).2.roleDB = st.roleDB := by
  refine ⟨?_, ?_, ?_⟩
  · intro u hu
    unfold AuthenticateUser
    rw [hu]
    exact ⟨_, rfl, rfl, rfl, rfl, rfl, rfl, rfl, rfl, List.length_map st.users _⟩
  · intro hn
    unfold AuthenticateUser
    rw [hn]
    exact ⟨_, rfl, rfl, rfl, rfl, rfl, rfl, rfl⟩
  · unfold AuthenticateUser
    cases hf : GetByTelegramID st.users a.id <;> rfl

/-- C8 witness: a concrete existing user is updated and no second row is
created. -/
theorem authenticateUser_spec_witness :
    GetByTelegramID [⟨5, 42, "old", "of", "ol", "barber", false⟩] 42
      = some ⟨5, 42, "old", "of", "ol", "barber", false⟩
    ∧ ∃ u2, (AuthenticateUser ⟨[⟨5, 42, "old", "of", "ol", "barber", false⟩], ⟨[], []⟩⟩
          ⟨42, "nu", "nf", "nl", 0, "h"⟩).1 = .ok u2
        ∧ u2.isActive = true ∧ u2.id = 5 := by
  refine ⟨rfl, ?_⟩
  obtain ⟨u2, heq, _, _, _, hact, hid, _⟩ :=
    (authenticateUser_spec ⟨[⟨5, 42, "old", "of", "ol", "barber", false⟩], ⟨[], []⟩⟩
        ⟨42, "nu", "nf", "nl", 0, "h"⟩).1 ⟨5, 42, "old", "of", "ol", "barber", false⟩ rfl
  exact ⟨u2, by rw [heq], hact, hid⟩

end GarageBarbershop
